import Mathlib

/-!
Verification of the kaiju city-destruction pipeline.

Shallow embedding of the destruction / interaction / lifetime subsystem:
  * the zustand game store (`src/stores/gameStore.ts`): `destroyBuilding`,
    `addShake`, `tickCombo`;
  * the building destruction engine (`src/components/Buildings.tsx`):
    `destroyBuilding`, `spawnDust`, and the per-frame chunk/dust simulator;
  * the kaiju interaction detector (`src/components/Kaiju.tsx`):
    `performSmash` (melee) and the `Space` stomp handler, with the punch
    cooldown.

Numbers are modelled as exact rationals (`ℚ`).  JavaScript `Math.random()`
calls are modelled by an explicit oracle `rand : ℕ → ℚ` whose successive
values stand for the successive draws, in the source's call order.
`Math.sqrt` distances are handled by passing the distance `d` as a value
constrained by `0 ≤ d` and `d * d = dx*dx + dz*dz` in the theorems.
-/

namespace Kaiju

/-- JavaScript `Math.round` on (finite, exactly-represented) inputs:
round half away from zero is `⌊x + 1/2⌋` for the nonnegative sizes used here. -/
def jsRound (q : ℚ) : ℤ := ⌊q + 1/2⌋

/-- Axis-aligned bounding box of a building footprint
(`bbox` field of `BuildingState` in `src/types/data.ts`; `maxX`/`maxZ` are
redundant given `minX + w`, `minZ + d` and are not used by the destruction path). -/
structure BBox where
  minX : ℚ
  minZ : ℚ
  w : ℚ
  d : ℚ
  deriving Repr, DecidableEq

/-- The fields of `BuildingState` (`src/types/data.ts`) read by the game store
and the destruction / interaction code.  `centroid` is `[centroidX, centroidZ]`. -/
structure Building where
  name : String
  destroyed : Bool
  centroidX : ℚ
  centroidZ : ℚ
  radius : ℚ
  height : ℚ
  bbox : BBox
  deriving Repr, DecidableEq

/-- The game store state (`useGameStore` in `src/stores/gameStore.ts`),
restricted to the fields its destruction-related actions touch. -/
structure GameStore where
  buildings : List Building
  destroyed : ℕ
  comboCount : ℕ
  comboTimer : ℚ
  comboText : String
  shakeAmount : ℚ
  deriving Repr, DecidableEq

/-- `destroyBuilding(index)` of the game store: look the record up, return
unchanged if missing or already destroyed, otherwise flip the flag, bump the
destroyed counter and the combo, reset the combo timer to 2.5 and update the
combo text (named buildings announce their name; otherwise a combo of more
than 2 is announced; an empty computed text keeps the previous text). -/
def destroyBuildingStore (s : GameStore) (index : ℕ) : GameStore :=
  match s.buildings[index]? with
  | none => s
  | some b =>
    if b.destroyed then s
    else
      let newCombo := s.comboCount + 1
      let t : String :=
        if b.name ≠ "" then "💥 " ++ b.name ++ " DESTROYED!"
        else if newCombo > 2 then "🔥 " ++ toString newCombo ++ "x COMBO!"
        else ""
      { s with
        buildings := s.buildings.set index { b with destroyed := true }
        destroyed := s.destroyed + 1
        comboCount := newCombo
        comboTimer := 5/2
        comboText := if t = "" then s.comboText else t }

/-- `addShake(amount)`: `shakeAmount := min(shakeAmount + amount, 3.0)`. -/
def addShakeStore (s : GameStore) (amount : ℚ) : GameStore :=
  { s with shakeAmount := min (s.shakeAmount + amount) 3 }

/-- `tickCombo(dt)`: count the combo timer down (clearing combo state when it
crosses 0) and decay the shake by a factor 0.88, snapping to 0 below 0.01.
Both branches read the state captured at entry, as the source does. -/
def tickComboStore (s : GameStore) (dt : ℚ) : GameStore :=
  let s1 :=
    if s.comboTimer > 0 then
      let newTimer := s.comboTimer - dt
      if newTimer ≤ 0 then { s with comboTimer := 0, comboCount := 0, comboText := "" }
      else { s with comboTimer := newTimer }
    else s
  if s.shakeAmount > 0 then
    let newShake := s.shakeAmount * (88/100)
    { s1 with shakeAmount := if newShake < 1/100 then 0 else newShake }
  else s1

/-- A call into the two store actions that touch `shakeAmount`. -/
inductive ShakeOp where
  | addShake (amount : ℚ)
  | tickCombo (dt : ℚ)
  deriving Repr, DecidableEq

/-- Interpret one `ShakeOp` on the store. -/
def applyShakeOp (s : GameStore) : ShakeOp → GameStore
  | .addShake a => addShakeStore s a
  | .tickCombo dt => tickComboStore s dt

/-- The argument constraints of claim C9: nonnegative shake amounts and
nonnegative time steps. -/
def shakeOpOk : ShakeOp → Prop
  | .addShake a => 0 ≤ a
  | .tickCombo dt => 0 ≤ dt

/-- The mutable state of a three.js material, restricted to the two fields
the frame loop writes (`transparent`, `opacity`). -/
structure MatState where
  opacity : ℚ
  transparent : Bool
  deriving Repr, DecidableEq

/-- A debris chunk as kept in the `chunks` ref of `Buildings.tsx`:
`{ mesh, body, life }`.  We record the mesh position and box size fixed at
creation, the remaining `life`, and the identifier of the mesh's material.
All chunks of one `destroyBuilding` call share a single cloned material
(`chunkMat`), so opacity lives in a material store indexed by `matId`, not
in the chunk.  The rigid-body state (mass, velocity, angular velocity) is
owned by the physics collaborator and is not modelled; a chunk's presence
in the list stands for its mesh and its physics body being live. -/
structure Chunk where
  posX : ℚ
  posY : ℚ
  posZ : ℚ
  sizeW : ℚ
  sizeH : ℚ
  sizeD : ℚ
  life : ℚ
  matId : ℕ
  deriving Repr, DecidableEq

/-- The lifetime part of one chunk's update inside the `useFrame` loop of
`Buildings.tsx`: `life -= dt`; at `life ≤ 0` the mesh and body are removed
(`none`); otherwise the chunk survives with the decremented life (its
transform synced from the body).  The fade write goes to the shared
material and is modelled in `chunkFrame`. -/
def chunkStep (dt : ℚ) (c : Chunk) : Option Chunk :=
  let life := c.life - dt
  if life ≤ 0 then none else some { c with life := life }

/-- The chunk pass of the `useFrame` loop
(`for (let i = chunks.length - 1; i >= 0; i--) …`): every chunk's life is
decremented and expired chunks are spliced out; each surviving chunk with
`life < 1.5` writes `transparent = true` and `opacity = life / 1.5` into its
(shared) material.  The loop runs from the back of the list towards the
front, so among siblings sharing one material the front-most fading
survivor's write lands last; the recursion applies the head's write on top
of the tail's writes to match. -/
def chunkFrame (dt : ℚ) : List Chunk → (ℕ → MatState) → List Chunk × (ℕ → MatState)
  | [], mats => ([], mats)
  | c :: rest, mats =>
    let r := chunkFrame dt rest mats
    let life := c.life - dt
    if life ≤ 0 then r
    else if life < 3/2 then
      ({ c with life := life } :: r.1,
        fun m => if m = c.matId then ⟨life / (3/2), true⟩ else r.2 m)
    else ({ c with life := life } :: r.1, r.2)

/-- The cap-eviction loop: `while (chunks.length > 400) chunks.shift()`,
i.e. drop from the front (the oldest, in creation order) until at most 400
remain.  Eviction does not write materials. -/
def chunkCap (l : List Chunk) : List Chunk := l.drop (l.length - 400)

/-- One simulator tick over the chunk list and the material store
(lifetime/fade pass, then cap eviction), at an already-clamped `dt`. -/
def chunkTick (dt : ℚ) (l : List Chunk) (mats : ℕ → MatState) :
    List Chunk × (ℕ → MatState) :=
  let r := chunkFrame dt l mats
  (chunkCap r.1, r.2)

/-- A dust particle as kept in the `dust` ref of `Buildings.tsx`. -/
structure Dust where
  posX : ℚ
  posY : ℚ
  posZ : ℚ
  vx : ℚ
  vy : ℚ
  vz : ℚ
  life : ℚ
  maxLife : ℚ
  scale : ℚ
  opacity : ℚ
  deriving Repr, DecidableEq

/-- One dust particle's update inside the `useFrame` loop of
`Buildings.tsx`: `life -= dt`; removal at `life ≤ 0`; otherwise integrate
position with the pre-update velocity, apply gravity `vy -= 1.5*dt` and
horizontal drag `×0.97`, grow the scale, and set
`opacity = (life / maxLife) * 0.4`. -/
def dustStep (dt : ℚ) (p : Dust) : Option Dust :=
  let life := p.life - dt
  if life ≤ 0 then none
  else
    some { posX := p.posX + p.vx * dt
           posY := p.posY + p.vy * dt
           posZ := p.posZ + p.vz * dt
           vx := p.vx * (97/100)
           vy := p.vy - (3/2) * dt
           vz := p.vz * (97/100)
           life := life
           maxLife := p.maxLife
           scale := 1 + (1 - life / p.maxLife) * 4
           opacity := life / p.maxLife * (2/5) }

/-- One simulator tick over the dust list, at an already-clamped `dt`. -/
def dustTick (dt : ℚ) (l : List Dust) : List Dust := l.filterMap (dustStep dt)

/-- One particle of `spawnDust` in `Buildings.tsx`, reading its random draws
from the oracle starting at position `k`, in the source's call order:
scale at `k`, the three colour channels at `k+1..k+3` (cosmetic, not kept),
position jitter at `k+4..k+6`, velocity at `k+7..k+9`, and the two
independent `life` / `maxLife` draws at `k+10` and `k+11`.  The material
starts at `opacity: 0.5`. -/
def spawnDustParticle (rand : ℕ → ℚ) (k : ℕ) (x y z size : ℚ) : Dust :=
  { posX := x + (rand (k+4) - 1/2) * size
    posY := y * rand (k+5)
    posZ := z + (rand (k+6) - 1/2) * size
    vx := (rand (k+7) - 1/2) * 12
    vy := 2 + rand (k+8) * 8
    vz := (rand (k+9) - 1/2) * 12
    life := 2 + rand (k+10) * (5/2)
    maxLife := 2 + rand (k+11) * (5/2)
    scale := 3/2 + rand k * (7/2)
    opacity := 1/2 }

/-- `spawnDust(x, y, z, size)`: `25 + floor(size * 1.5)` particles, the
`i`-th consuming the 12 oracle draws starting at `k0 + 12*i`. -/
def spawnDust (rand : ℕ → ℚ) (k0 : ℕ) (x y z size : ℚ) : List Dust :=
  (List.range (25 + (⌊size * (3/2)⌋).toNat)).map fun i =>
    spawnDustParticle rand (k0 + 12 * i) x y z size

/-- `nx = Math.max(2, Math.round(bw / 3))` — grid divisions along x. -/
def countX (b : Building) : ℕ := (max 2 (jsRound (b.bbox.w / 3))).toNat

/-- `nz = Math.max(2, Math.round(bd / 3))` — grid divisions along z. -/
def countZ (b : Building) : ℕ := (max 2 (jsRound (b.bbox.d / 3))).toNat

/-- `ny = Math.max(2, Math.round(height / 4))` — grid divisions along y. -/
def countY (b : Building) : ℕ := (max 2 (jsRound (b.height / 4))).toNat

/-- The chunk-creation triple loop of `destroyBuilding` in `Buildings.tsx`
(`for ix / for iz / for iy`).  Each grid cell consumes 12 oracle draws, in
source order: the three size jitters at offsets 0–2, then the body's mass,
horizontal force, upward force, two velocity jitters and three angular
velocities at offsets 3–10 (handed to the physics collaborator, not kept),
and the chunk lifetime `5 + random()*3` at offset 11.  Every chunk of the
call carries the same `matId`: the one cloned `chunkMat`. -/
def mkChunks (b : Building) (rand : ℕ → ℚ) (matId : ℕ) : List Chunk :=
  let nx := countX b
  let nz := countZ b
  let ny := countY b
  let cw := b.bbox.w / nx
  let cd := b.bbox.d / nz
  let ch := b.height / ny
  (List.range nx).flatMap fun ix =>
    (List.range nz).flatMap fun iz =>
      (List.range ny).map fun iy =>
        let k := 12 * ((ix * nz + iz) * ny + iy)
        let sw := cw * (65/100 + rand k * (35/100))
        let sh := ch * (65/100 + rand (k+1) * (35/100))
        let sd := cd * (65/100 + rand (k+2) * (35/100))
        { posX := b.bbox.minX + cw * ((ix : ℚ) + 1/2)
          posY := ch * ((iy : ℚ) + 1/2)
          posZ := -(b.bbox.minZ + cd * ((iz : ℚ) + 1/2))
          sizeW := sw, sizeH := sh, sizeD := sd
          life := 5 + rand (k+11) * 3
          matId := matId }

/-- One entry of the `buildingMeshes` ref of `Buildings.tsx`:
`{ parts, index }`, with `parts` abstracted to the number of standing mesh
parts (their geometric content plays no role in the claims). -/
structure MeshGroup where
  index : ℕ
  parts : ℕ
  deriving Repr, DecidableEq

/-- The mesh-removal step of `destroyBuilding`: find the first group with
the given index, remove its parts from the scene and set `bg.parts = []`. -/
def clearMesh (i : ℕ) : List MeshGroup → List MeshGroup
  | [] => []
  | g :: gs => if g.index = i then { g with parts := 0 } :: gs else g :: clearMesh i gs

/-- The mutable state of the `Buildings` component: the destroyed-set, the
standing mesh groups, the live chunks and dust (in creation order), the
chunk-material store with its next fresh identifier (each `destroyBuilding`
call clones one `chunkMat` shared by all its chunks), and the game store it
writes through to.  The component's `buildings` prop is the store's list. -/
structure BComp where
  destroyedSet : List ℕ
  meshes : List MeshGroup
  chunks : List Chunk
  dust : List Dust
  mats : ℕ → MatState
  nextMat : ℕ
  store : GameStore

/-- `destroyBuilding(bIndex, kaijuX, kaijuZ)` of `Buildings.tsx`:
return at once if `bIndex` is already in the destroyed-set; otherwise add it,
mark the store record destroyed, `addShake(0.8)`, clear the standing mesh
parts, clone one `chunkMat` from the style material (opacity 1, opaque —
the wall materials never set `transparent`/`opacity`), create the grid of
chunks all sharing that clone, spawn the dust burst and flash the screen
(the flash is a DOM side effect with no modelled state).  The chunk oracle
draws start at 0 and the dust draws follow them.  If `bIndex` has no record
the source would throw on destructuring `b` after the set/store/mesh
mutations; that branch returns the partially-updated state and is outside
every claim, which all require a valid index. -/
def destroyBuildingComp (rand : ℕ → ℚ) (bIndex : ℕ) (kaijuX kaijuZ : ℚ) (s : BComp) : BComp :=
  if bIndex ∈ s.destroyedSet then s
  else
    let b? := s.store.buildings[bIndex]?
    let s1 : BComp :=
      { s with
        destroyedSet := bIndex :: s.destroyedSet
        store := addShakeStore (destroyBuildingStore s.store bIndex) (8/10)
        meshes := clearMesh bIndex s.meshes }
    match b? with
    | none => s1
    | some b =>
      { s1 with
        mats := fun m => if m = s.nextMat then ⟨1, false⟩ else s.mats m
        nextMat := s.nextMat + 1
        chunks := s1.chunks ++ mkChunks b rand s.nextMat
        dust := s1.dust ++
          spawnDust rand (12 * (countX b * countZ b * countY b))
            b.centroidX (b.height / 2) b.centroidZ
            (max (max b.bbox.w b.bbox.d) b.height) }

/-- Melee eligibility for one building, from the loop body of `performSmash`
in `Kaiju.tsx`: skip destroyed; `reach = (radius || (w/2 + d/2)/2) + 12`;
within reach, hit when the facing dot product is positive or the distance is
under 8.  `dist` is the value of `Math.sqrt(dx*dx + dz*dz)`. -/
def smashEligible (b : Building) (px pz dirX dirZ dist : ℚ) : Bool :=
  if b.destroyed then false
  else
    let dx := b.centroidX - px
    let dz := b.centroidZ - pz
    let reach := (if b.radius = 0 then (b.bbox.w / 2 + b.bbox.d / 2) / 2 else b.radius) + 12
    if dist < reach then
      let dot := dx * dirX + dz * dirZ
      decide (dot > 0) || decide (dist < 8)
    else false

/-- Stomp eligibility for one building, from the `Space` handler of the
kaiju frame loop: skip destroyed; hit when `dx*dx + dz*dz < 625`. -/
def stompEligible (b : Building) (px pz : ℚ) : Bool :=
  if b.destroyed then false
  else
    let dx := b.centroidX - px
    let dz := b.centroidZ - pz
    decide (dx * dx + dz * dz < 625)

/-- The shared shape of the two interaction loops
(`for (let i = 0; i < buildings.length; i++) { … if (eligible) destroy(i, px, pz); }`):
scan the building indices in order, and on each eligible building call the
destruction engine (`window.__destroyBuilding`), which mutates the component
state read by later iterations.  `rand i` is the oracle for the draws of the
destroy call at index `i`.  `scanStep` is one loop iteration. -/
def scanStep (rand : ℕ → ℕ → ℚ) (px pz : ℚ) (elig : ℕ → Building → Bool)
    (c : BComp) (i : ℕ) : BComp :=
  match c.store.buildings[i]? with
  | none => c
  | some b => if elig i b then destroyBuildingComp (rand i) i px pz c else c

/-- The interaction scan itself: fold `scanStep` over the indices in order. -/
def destroyScan (rand : ℕ → ℕ → ℚ) (px pz : ℚ) (elig : ℕ → Building → Bool) (c : BComp) : BComp :=
  (List.range c.store.buildings.length).foldl (scanStep rand px pz elig) c

/-- The kaiju controller state relevant to interaction: the punch cooldown
ref and the `Buildings` component it destroys through. -/
structure KaijuWorld where
  cooldown : ℚ
  comp : BComp

/-- `performSmash()` of `Kaiju.tsx`: return at once while the cooldown is
positive; otherwise set it to 0.3, scan all buildings for melee-eligible
ones and destroy them, then `addShake(0.3)`.  The arm swing animation is
cosmetic and not modelled; `dist i` stands for the `Math.sqrt` distance of
building `i` from the character. -/
def performSmash (rand : ℕ → ℕ → ℚ) (dist : ℕ → ℚ) (px pz dirX dirZ : ℚ)
    (w : KaijuWorld) : KaijuWorld :=
  if w.cooldown > 0 then w
  else
    let comp := destroyScan rand px pz
      (fun i b => smashEligible b px pz dirX dirZ (dist i)) w.comp
    { cooldown := 3/10
      comp := { comp with store := addShakeStore comp.store (3/10) } }

/-- The stomp branch of the kaiju frame loop (`Space`): `addShake(2.0)`, a
screen flash (DOM side effect, not modelled), then destroy every building
whose centroid is within the stomp radius. -/
def performStomp (rand : ℕ → ℕ → ℚ) (px pz : ℚ) (c : BComp) : BComp :=
  destroyScan rand px pz (fun _ b => stompEligible b px pz)
    { c with store := addShakeStore c.store 2 }

/-- The cooldown bookkeeping of the kaiju frame loop: the frame clamps
`dt = Math.min(rawDt, 0.05)` and then runs
`if (punchCooldown.current > 0) punchCooldown.current -= dt`. -/
def tickCooldown (rawDt : ℚ) (w : KaijuWorld) : KaijuWorld :=
  let dt := min rawDt (1/20)
  if w.cooldown > 0 then { w with cooldown := w.cooldown - dt } else w

/-! ## Helper lemmas -/

/-- The shake amount after `tickCombo`: decayed by 0.88 (snapping to 0 below
0.01) when positive, untouched otherwise; the combo-timer branch never
writes it. -/
theorem tickComboStore_shakeAmount (s : GameStore) (dt : ℚ) :
    (tickComboStore s dt).shakeAmount =
      if s.shakeAmount > 0 then
        if s.shakeAmount * (88/100) < 1/100 then 0 else s.shakeAmount * (88/100)
      else s.shakeAmount := by
  simp only [tickComboStore]
  split_ifs <;> rfl

/-- One store action keeps `shakeAmount ≤ 3`. -/
theorem applyShakeOp_shake_le (s : GameStore) (op : ShakeOp) (hs : s.shakeAmount ≤ 3) :
    (applyShakeOp s op).shakeAmount ≤ 3 := by
  cases op with
  | addShake a =>
    simp only [applyShakeOp, addShakeStore]
    exact min_le_right (s.shakeAmount + a) 3
  | tickCombo dt =>
    rw [applyShakeOp, tickComboStore_shakeAmount]
    split_ifs with h1 h2
    · norm_num
    · linarith
    · exact hs

/-- `find?` over a cleared mesh list: the group found at the cleared index
has no remaining parts. -/
theorem clearMesh_find? (i : ℕ) :
    ∀ l : List MeshGroup, ∀ g, (clearMesh i l).find? (fun g => g.index == i) = some g →
      g.parts = 0 := by
  intro l
  induction l with
  | nil => intro g h; simp [clearMesh] at h
  | cons g0 gs ih =>
    intro g h
    by_cases h0 : g0.index = i
    · rw [clearMesh, if_pos h0] at h
      rw [List.find?_cons_of_pos _ (by simp [h0])] at h
      cases h
      rfl
    · rw [clearMesh, if_neg h0] at h
      rw [List.find?_cons_of_neg _ (by simp [h0])] at h
      exact ih g h

/-- `destroyBuilding` of the component is a no-op when the index is already
in the destroyed-set (the membership test precedes every mutation). -/
theorem destroyBuildingComp_of_mem (rand : ℕ → ℚ) (bIndex : ℕ) (kx kz : ℚ) (s : BComp)
    (h : bIndex ∈ s.destroyedSet) : destroyBuildingComp rand bIndex kx kz s = s := by
  simp [destroyBuildingComp, h]

/-- A fresh `destroyBuilding` call adds its index to the destroyed-set. -/
theorem destroyBuildingComp_destroyedSet (rand : ℕ → ℚ) (bIndex : ℕ) (kx kz : ℚ) (s : BComp)
    (h : bIndex ∉ s.destroyedSet) :
    (destroyBuildingComp rand bIndex kx kz s).destroyedSet = bIndex :: s.destroyedSet := by
  rw [destroyBuildingComp, if_neg h]
  cases hb : s.store.buildings[bIndex]? <;> simp [hb]

/-- A fresh `destroyBuilding` call writes the store exactly once:
`addShake(0.8)` after the store's `destroyBuilding(bIndex)`. -/
theorem destroyBuildingComp_store (rand : ℕ → ℚ) (bIndex : ℕ) (kx kz : ℚ) (s : BComp)
    (h : bIndex ∉ s.destroyedSet) :
    (destroyBuildingComp rand bIndex kx kz s).store =
      addShakeStore (destroyBuildingStore s.store bIndex) (8/10) := by
  rw [destroyBuildingComp, if_neg h]
  cases hb : s.store.buildings[bIndex]? <;> simp [hb]

/-- A fresh `destroyBuilding` call clears the standing mesh parts. -/
theorem destroyBuildingComp_meshes (rand : ℕ → ℚ) (bIndex : ℕ) (kx kz : ℚ) (s : BComp)
    (h : bIndex ∉ s.destroyedSet) :
    (destroyBuildingComp rand bIndex kx kz s).meshes = clearMesh bIndex s.meshes := by
  rw [destroyBuildingComp, if_neg h]
  cases hb : s.store.buildings[bIndex]? <;> simp [hb]

/-- A fresh `destroyBuilding` call on a present record appends exactly the
grid of chunks to the live list. -/
theorem destroyBuildingComp_chunks (rand : ℕ → ℚ) (bIndex : ℕ) (kx kz : ℚ) (s : BComp)
    (b : Building) (h : bIndex ∉ s.destroyedSet)
    (hb : s.store.buildings[bIndex]? = some b) :
    (destroyBuildingComp rand bIndex kx kz s).chunks =
      s.chunks ++ mkChunks b rand s.nextMat := by
  rw [destroyBuildingComp, if_neg h]
  simp [hb]

/-- After the store's `destroyBuilding(i)` on a valid index, the record at
`i` carries `destroyed = true` (whether or not it already did). -/
theorem destroyBuildingStore_flag (st : GameStore) (i : ℕ) (h : i < st.buildings.length) :
    ∀ b', (destroyBuildingStore st i).buildings[i]? = some b' → b'.destroyed = true := by
  intro b' hb'
  have hget : st.buildings[i]? = some st.buildings[i] := List.getElem?_eq_getElem h
  by_cases hd : (st.buildings[i]).destroyed = true
  · simp only [destroyBuildingStore, hget, hd, if_true] at hb'
    cases hb'
    exact hd
  · simp only [destroyBuildingStore, hget, if_neg hd] at hb'
    rw [List.getElem?_set_self (by simpa using h)] at hb'
    cases hb'
    rfl

/-- The store's `destroyBuilding(j)` leaves every other record untouched. -/
theorem destroyBuildingStore_get_ne (st : GameStore) (i j : ℕ) (hne : j ≠ i) :
    (destroyBuildingStore st j).buildings[i]? = st.buildings[i]? := by
  cases hb : st.buildings[j]? with
  | none => simp [destroyBuildingStore, hb]
  | some b =>
    by_cases hd : b.destroyed = true
    · simp [destroyBuildingStore, hb, hd]
    · simp only [destroyBuildingStore, hb, if_neg hd]
      exact List.getElem?_set_ne hne

/-- The component's `destroyBuilding(j)` leaves every other store record
untouched. -/
theorem destroyBuildingComp_get_ne (rand : ℕ → ℚ) (j : ℕ) (kx kz : ℚ) (s : BComp)
    (i : ℕ) (hne : j ≠ i) :
    (destroyBuildingComp rand j kx kz s).store.buildings[i]? = s.store.buildings[i]? := by
  by_cases hmem : j ∈ s.destroyedSet
  · rw [destroyBuildingComp_of_mem rand j kx kz s hmem]
  · rw [destroyBuildingComp_store rand j kx kz s hmem]
    exact destroyBuildingStore_get_ne s.store i j hne

/-- The component's `destroyBuilding(j)` does not add any other index to the
destroyed-set. -/
theorem destroyBuildingComp_mem_ne (rand : ℕ → ℚ) (j : ℕ) (kx kz : ℚ) (s : BComp)
    (i : ℕ) (hne : j ≠ i) :
    (i ∈ (destroyBuildingComp rand j kx kz s).destroyedSet) ↔ i ∈ s.destroyedSet := by
  by_cases hmem : j ∈ s.destroyedSet
  · rw [destroyBuildingComp_of_mem rand j kx kz s hmem]
  · rw [destroyBuildingComp_destroyedSet rand j kx kz s hmem]
    simp [List.mem_cons, (Ne.symm hne).elim]
    intro h
    exact absurd h.symm hne

/-- A fresh `destroyBuilding(i)` on a not-yet-destroyed valid record flips
exactly that record's flag. -/
theorem destroyBuildingComp_flag_set (rand : ℕ → ℚ) (i : ℕ) (kx kz : ℚ) (s : BComp)
    (b : Building) (hset : i ∉ s.destroyedSet)
    (hb : s.store.buildings[i]? = some b) (hnd : b.destroyed = false) :
    (destroyBuildingComp rand i kx kz s).store.buildings[i]? =
      some { b with destroyed := true } := by
  rw [destroyBuildingComp_store rand i kx kz s hset]
  show (destroyBuildingStore s.store i).buildings[i]? = _
  have hlt : i < s.store.buildings.length := (List.getElem?_eq_some_iff.mp hb).1
  have hd : ¬ (b.destroyed = true) := by simp [hnd]
  simp only [destroyBuildingStore, hb, if_neg hd]
  exact List.getElem?_set_self hlt

/-- One scan iteration at another index leaves a building's store record and
its destroyed-set membership alone. -/
theorem scanStep_preserve (rand : ℕ → ℕ → ℚ) (px pz : ℚ) (elig : ℕ → Building → Bool)
    (c : BComp) (i j : ℕ) (hne : j ≠ i) :
    (scanStep rand px pz elig c j).store.buildings[i]? = c.store.buildings[i]? ∧
      ((i ∈ (scanStep rand px pz elig c j).destroyedSet) ↔ i ∈ c.destroyedSet) := by
  rw [scanStep]
  cases hb : c.store.buildings[j]? with
  | none => exact ⟨rfl, Iff.rfl⟩
  | some b =>
    by_cases he : elig j b
    · simp only [he, if_true]
      exact ⟨destroyBuildingComp_get_ne (rand j) j px pz c i hne,
        destroyBuildingComp_mem_ne (rand j) j px pz c i hne⟩
    · simp only [he, if_false]
      exact ⟨rfl, Iff.rfl⟩

/-- A scan over indices avoiding `i` leaves building `i`'s record and
membership alone. -/
theorem scanFold_preserve (rand : ℕ → ℕ → ℚ) (px pz : ℚ) (elig : ℕ → Building → Bool)
    (js : List ℕ) (i : ℕ) (hjs : ∀ j ∈ js, j ≠ i) :
    ∀ c : BComp,
      (js.foldl (scanStep rand px pz elig) c).store.buildings[i]? =
        c.store.buildings[i]? ∧
      ((i ∈ (js.foldl (scanStep rand px pz elig) c).destroyedSet) ↔
        i ∈ c.destroyedSet) := by
  induction js with
  | nil => intro c; exact ⟨rfl, Iff.rfl⟩
  | cons j js ih =>
    intro c
    simp only [List.foldl_cons]
    have hstep := scanStep_preserve rand px pz elig c i j (hjs j (List.mem_cons_self j js))
    have hrest := ih (fun x hx => hjs x (List.mem_cons_of_mem j hx)) (scanStep rand px pz elig c j)
    exact ⟨hrest.1.trans hstep.1, hrest.2.trans hstep.2⟩

/-- The scan iteration at index `i` itself: on a fresh, present,
not-yet-destroyed record it flips the flag exactly when the building is
eligible. -/
theorem scanStep_at (rand : ℕ → ℕ → ℚ) (px pz : ℚ) (elig : ℕ → Building → Bool)
    (c : BComp) (i : ℕ) (b : Building)
    (hb : c.store.buildings[i]? = some b) (hnd : b.destroyed = false)
    (hset : i ∉ c.destroyedSet) :
    (scanStep rand px pz elig c i).store.buildings[i]? =
      (if elig i b then some { b with destroyed := true } else some b) := by
  rw [scanStep]
  simp only [hb]
  by_cases he : elig i b
  · simp only [he, if_true]
    exact destroyBuildingComp_flag_set (rand i) i px pz c b hset hb hnd
  · simp only [he, if_false]
    exact hb

/-- The full interaction scan destroys a fresh, not-yet-destroyed building
exactly when it is eligible, and leaves its record `some b` otherwise. -/
theorem destroyScan_get (rand : ℕ → ℕ → ℚ) (px pz : ℚ) (elig : ℕ → Building → Bool)
    (c : BComp) (i : ℕ) (b : Building)
    (hb : c.store.buildings[i]? = some b) (hnd : b.destroyed = false)
    (hset : i ∉ c.destroyedSet) :
    (destroyScan rand px pz elig c).store.buildings[i]? =
      (if elig i b then some { b with destroyed := true } else some b) := by
  have hlt : i < c.store.buildings.length := (List.getElem?_eq_some_iff.mp hb).1
  obtain ⟨k, hk⟩ : ∃ k, c.store.buildings.length = i + (k + 1) :=
    ⟨c.store.buildings.length - i - 1, by omega⟩
  rw [destroyScan, hk, List.range_add, List.foldl_append, List.range_succ_eq_map,
    List.map_cons, List.map_map, List.foldl_cons]
  have hpre := scanFold_preserve rand px pz elig (List.range i) i
    (fun j hj => by have := List.mem_range.mp hj; omega) c
  set c1 := (List.range i).foldl (scanStep rand px pz elig) c with hc1
  have hb1 : c1.store.buildings[i]? = some b := hpre.1.trans hb
  have hset1 : i ∉ c1.destroyedSet := fun hx => hset (hpre.2.mp hx)
  have hstep : (scanStep rand px pz elig c1 (i + 0)).store.buildings[i]? =
      (if elig i b then some { b with destroyed := true } else some b) := by
    simpa using scanStep_at rand px pz elig c1 i b hb1 hnd hset1
  have hpost := scanFold_preserve rand px pz elig
    ((List.range k).map ((fun x => i + x) ∘ Nat.succ)) i
    (fun j hj => by
      rcases List.mem_map.mp hj with ⟨x, _, hx⟩
      simp only [Function.comp_apply] at hx
      omega) (scanStep rand px pz elig c1 (i + 0))
  exact hpost.1.trans hstep

/-- Melee eligibility unfolded, for a live building with a nonzero bounding
radius: within `radius + 12` and (facing-aligned or under the short-range
override). -/
theorem smashEligible_iff (b : Building) (px pz dirX dirZ d : ℚ)
    (hnd : b.destroyed = false) (hr : b.radius ≠ 0) :
    smashEligible b px pz dirX dirZ d = true ↔
      (d < b.radius + 12 ∧
        (0 < (b.centroidX - px) * dirX + (b.centroidZ - pz) * dirZ ∨ d < 8)) := by
  rw [smashEligible]
  simp only [hnd, Bool.false_eq_true, if_false, if_neg hr]
  by_cases hlt : d < b.radius + 12
  · simp only [hlt, if_true, if_pos hlt]
    simp [gt_iff_lt]
  · simp only [if_neg hlt]
    simp [hlt]

/-- Stomp eligibility unfolded, for a live building at true distance `d`:
the squared-distance test `dx² + dz² < 625` is exactly `d < 25`. -/
theorem stompEligible_iff (b : Building) (px pz d : ℚ)
    (hnd : b.destroyed = false) (hd0 : 0 ≤ d)
    (hdist : d * d = (b.centroidX - px) * (b.centroidX - px) +
                     (b.centroidZ - pz) * (b.centroidZ - pz)) :
    stompEligible b px pz = true ↔ d < 25 := by
  rw [stompEligible]
  simp only [hnd, Bool.false_eq_true, if_false, decide_eq_true_eq]
  rw [← hdist]
  constructor
  · intro h; nlinarith
  · intro h; nlinarith

/-- `performSmash` during a positive cooldown is a no-op. -/
theorem performSmash_of_cooldown_pos (rand : ℕ → ℕ → ℚ) (dist : ℕ → ℚ)
    (px pz dirX dirZ : ℚ) (w : KaijuWorld) (h : w.cooldown > 0) :
    performSmash rand dist px pz dirX dirZ w = w := by
  simp [performSmash, h]

/-- Frame ticks whose raw `dt`s sum below the current cooldown leave it
positive (the per-frame clamp `min(dt, 0.05)` only slows the countdown). -/
theorem foldl_tickCooldown_pos (dts : List ℚ) :
    ∀ w : KaijuWorld, (∀ x ∈ dts, 0 ≤ x) → dts.sum < w.cooldown →
      0 < (dts.foldl (fun w dt => tickCooldown dt w) w).cooldown := by
  induction dts with
  | nil =>
    intro w _ h
    simpa using lt_of_le_of_lt (by simp) h
  | cons dt dts ih =>
    intro w hge h
    simp only [List.foldl_cons]
    have hdt : 0 ≤ dt := hge dt (List.mem_cons_self dt dts)
    have hsums : 0 ≤ dts.sum :=
      List.sum_nonneg (fun x hx => hge x (List.mem_cons_of_mem dt hx))
    simp only [List.sum_cons] at h
    have hcd : w.cooldown > 0 := by linarith
    have hstep : tickCooldown dt w = { w with cooldown := w.cooldown - min dt (1/20) } := by
      rw [tickCooldown]
      simp [hcd]
    rw [hstep]
    apply ih _ (fun x hx => hge x (List.mem_cons_of_mem dt hx))
    have hmin : min dt (1/20 : ℚ) ≤ dt := min_le_left _ _
    show dts.sum < w.cooldown - min dt (1/20)
    linarith

/-! ## Claims -/

/-- C9: starting from any `shakeAmount ≤ 3.0`, any sequence of
`addShake(amount)` calls with `amount ≥ 0` and `tickCombo(dt)` calls with
`dt ≥ 0` keeps `shakeAmount ≤ 3.0`: `addShake` clamps the sum at 3.0 and
`tickCombo` only multiplies the shake by 0.88 or zeroes it. -/
theorem shake_bounded (ops : List ShakeOp) (s : GameStore)
    (hs : s.shakeAmount ≤ 3) (hops : ∀ op ∈ ops, shakeOpOk op) :
    (ops.foldl applyShakeOp s).shakeAmount ≤ 3 := by
  induction ops generalizing s with
  | nil => exact hs
  | cons op ops ih =>
    simp only [List.foldl_cons]
    exact ih (applyShakeOp s op) (applyShakeOp_shake_le s op hs)
      (fun o ho => hops o (List.mem_cons_of_mem op ho))

/-- Witness for C9 at a concrete starting store and operation list. -/
theorem shake_bounded_witness :
    (([ShakeOp.addShake 2, ShakeOp.tickCombo 1, ShakeOp.addShake 5].foldl applyShakeOp
      ⟨[], 0, 0, 0, "", 1⟩).shakeAmount ≤ 3) :=
  shake_bounded _ _ (by norm_num)
    (by norm_num [List.forall_mem_cons, shakeOpOk])

/-- C10: calling the game store's `destroyBuilding` with an index out of
range of the buildings list leaves the state unchanged (and cannot throw:
the missing record is checked before any mutation). -/
theorem destroyStore_out_of_range (s : GameStore) (index : ℕ)
    (h : s.buildings.length ≤ index) : destroyBuildingStore s index = s := by
  unfold destroyBuildingStore
  rw [List.getElem?_eq_none h]

/-- Witness for C10 at a concrete store and index. -/
theorem destroyStore_out_of_range_witness :
    destroyBuildingStore ⟨[], 0, 0, 0, "", 0⟩ 5 = ⟨[], 0, 0, 0, "", 0⟩ :=
  destroyStore_out_of_range ⟨[], 0, 0, 0, "", 0⟩ 5 (by norm_num)

/-- The survivor list of the chunk pass is a `filterMap` of the lifetime
step: the material writes do not feed back into which chunks survive or
their order. -/
theorem chunkFrame_fst (dt : ℚ) (l : List Chunk) (mats : ℕ → MatState) :
    (chunkFrame dt l mats).1 = l.filterMap (chunkStep dt) := by
  induction l with
  | nil => rfl
  | cons c rest ih =>
    simp only [chunkFrame, List.filterMap_cons, chunkStep]
    by_cases h0 : c.life - dt ≤ 0
    · simp [h0, ih]
    · by_cases h15 : c.life - dt < 3/2
      · simp [h0, h15, ih]
      · simp [h0, h15, ih]

/-- C3: after the simulator tick over the chunk list, at most 400 chunks are
live; the survivors are a suffix of the processed list, i.e. whenever the
bound would be exceeded the evicted chunks are exactly the oldest ones
(front of the FIFO), regardless of their remaining life, and nothing is
evicted while the count is within the cap. -/
theorem chunk_cap_invariant (dt : ℚ) (l : List Chunk) (mats : ℕ → MatState) :
    (chunkTick dt l mats).1.length ≤ 400 ∧
    ∃ evicted, l.filterMap (chunkStep dt) = evicted ++ (chunkTick dt l mats).1 ∧
      ((l.filterMap (chunkStep dt)).length ≤ 400 → evicted = []) := by
  refine ⟨?_, (l.filterMap (chunkStep dt)).take ((l.filterMap (chunkStep dt)).length - 400),
    ?_, ?_⟩
  · simp only [chunkTick, chunkCap, chunkFrame_fst, List.length_drop]
    omega
  · simp only [chunkTick, chunkCap, chunkFrame_fst]
    exact (List.take_append_drop _ _).symm
  · intro h
    rw [Nat.sub_eq_zero_of_le h, List.take_zero]

/-- C6 (refuted — code bug): every chunk of one `destroyBuilding` call
shares the single cloned `chunkMat`, so the frame loop's per-chunk fade
write `material.opacity = life / 1.5` aliases between siblings.  Ticking two
sibling chunks with lives 1.35 and 0.65 (both possible draws of one call),
the back-to-front loop writes `0.6 / 1.5` first and `1.3 / 1.5` last, and
the chunk with remaining life 0.6 renders at opacity `13/15`, not the
`0.6 / 1.5 = 2/5` the claim (and the evident intent of the per-chunk write)
requires. -/
theorem chunk_fade_aliasing :
    ∃ c ∈ (chunkTick (1/20)
        [⟨0, 0, 0, 1, 1, 1, 27/20, 0⟩, ⟨0, 0, 0, 1, 1, 1, 13/20, 0⟩]
        (fun _ => ⟨1, false⟩)).1,
      c.life < 3/2 ∧
      ((chunkTick (1/20)
          [⟨0, 0, 0, 1, 1, 1, 27/20, 0⟩, ⟨0, 0, 0, 1, 1, 1, 13/20, 0⟩]
          (fun _ => ⟨1, false⟩)).2 c.matId).opacity ≠ c.life / (3/2) := by
  refine ⟨⟨0, 0, 0, 1, 1, 1, 3/5, 0⟩, ?_, by norm_num, ?_⟩
  · norm_num [chunkTick, chunkCap, chunkFrame]
  · norm_num [chunkTick, chunkFrame]

/-- C8, counterexample: a dust particle whose spawn draws give
`life = 4.25` and `maxLife = 2` (the two draws are independent) has, after a
0.05 s tick, opacity `(4.2 / 2) × 0.4 = 0.84 > 0.4`: the claimed 0.4 cap
does not hold. -/
theorem dust_opacity_cap_counterexample :
    ∃ p, dustStep (1/20)
        (spawnDustParticle (fun n => if n = 10 then 9/10 else 0) 0 0 0 0 10) = some p
      ∧ p.opacity > 2/5 := by
  refine ⟨⟨-53/10, 1/10, -53/10, -291/50, 77/40, -291/50, 21/5, 2, -17/5, 21/25⟩, ?_, ?_⟩
  · norm_num [dustStep, spawnDustParticle]
  · norm_num

/-- C8, amended: after a tick, every live dust particle's opacity equals
`(remainingLife / maxLife) × 0.4`; the 0.4 cap holds whenever
`remainingLife ≤ maxLife`, but the independent spawn draws allow
`remainingLife > maxLife`, in which case the opacity exceeds 0.4. -/
theorem dust_opacity_formula (dt : ℚ) (p : Dust) (hml : 0 < p.maxLife) :
    ∀ p', dustStep dt p = some p' →
      p'.opacity = p'.life / p'.maxLife * (2/5) ∧
      (p'.life ≤ p'.maxLife → p'.opacity ≤ 2/5) := by
  intro p' h
  simp only [dustStep] at h
  by_cases h0 : p.life - dt ≤ 0
  · simp [h0] at h
  · simp only [if_neg h0, Option.some.injEq] at h
    subst h
    refine ⟨rfl, fun hle => ?_⟩
    have h1 : (p.life - dt) / p.maxLife ≤ 1 := (div_le_one hml).mpr hle
    linarith

/-- C1: a first `destroyBuilding(B, x, z)` on a valid, not-yet-destroyed
index marks the store record destroyed and clears the standing mesh parts;
any subsequent `destroyBuilding(B, _, _)` returns the state unchanged — no
new chunks, no new dust, no counter change — because the destroyed-set
membership test precedes every mutation. -/
theorem destroy_idempotent (rand rand2 : ℕ → ℚ) (bIndex : ℕ) (kx kz kx2 kz2 : ℚ)
    (s : BComp) (hset : bIndex ∉ s.destroyedSet)
    (hlt : bIndex < s.store.buildings.length) :
    (∀ b', (destroyBuildingComp rand bIndex kx kz s).store.buildings[bIndex]? = some b' →
      b'.destroyed = true) ∧
    (∀ g, (destroyBuildingComp rand bIndex kx kz s).meshes.find?
        (fun g => g.index == bIndex) = some g → g.parts = 0) ∧
    destroyBuildingComp rand2 bIndex kx2 kz2 (destroyBuildingComp rand bIndex kx kz s) =
      destroyBuildingComp rand bIndex kx kz s := by
  refine ⟨?_, ?_, ?_⟩
  · intro b' hb'
    rw [destroyBuildingComp_store rand bIndex kx kz s hset] at hb'
    exact destroyBuildingStore_flag s.store bIndex hlt b' hb'
  · intro g hg
    rw [destroyBuildingComp_meshes rand bIndex kx kz s hset] at hg
    exact clearMesh_find? bIndex s.meshes g hg
  · apply destroyBuildingComp_of_mem
    rw [destroyBuildingComp_destroyedSet rand bIndex kx kz s hset]
    exact List.mem_cons_self bIndex _

/-- Witness for C1 at a concrete component state. -/
theorem destroy_idempotent_witness :
    (∀ b', (destroyBuildingComp (fun _ => 0) 0 0 0
        ⟨[], [⟨0, 4⟩], [], [], (fun _ => ⟨1, false⟩), 0, ⟨[⟨"", false, 0, 0, 5, 8, ⟨0, 0, 9, 9⟩⟩], 0, 0, 0, "", 0⟩⟩
        ).store.buildings[0]? = some b' → b'.destroyed = true) ∧
    (∀ g, (destroyBuildingComp (fun _ => 0) 0 0 0
        ⟨[], [⟨0, 4⟩], [], [], (fun _ => ⟨1, false⟩), 0, ⟨[⟨"", false, 0, 0, 5, 8, ⟨0, 0, 9, 9⟩⟩], 0, 0, 0, "", 0⟩⟩
        ).meshes.find? (fun g => g.index == 0) = some g → g.parts = 0) ∧
    destroyBuildingComp (fun _ => 1/2) 0 7 7 (destroyBuildingComp (fun _ => 0) 0 0 0
        ⟨[], [⟨0, 4⟩], [], [], (fun _ => ⟨1, false⟩), 0, ⟨[⟨"", false, 0, 0, 5, 8, ⟨0, 0, 9, 9⟩⟩], 0, 0, 0, "", 0⟩⟩) =
      destroyBuildingComp (fun _ => 0) 0 0 0
        ⟨[], [⟨0, 4⟩], [], [], (fun _ => ⟨1, false⟩), 0, ⟨[⟨"", false, 0, 0, 5, 8, ⟨0, 0, 9, 9⟩⟩], 0, 0, 0, "", 0⟩⟩ :=
  destroy_idempotent (fun _ => 0) (fun _ => 1/2) 0 0 0 7 7
    ⟨[], [⟨0, 4⟩], [], [], (fun _ => ⟨1, false⟩), 0, ⟨[⟨"", false, 0, 0, 5, 8, ⟨0, 0, 9, 9⟩⟩], 0, 0, 0, "", 0⟩⟩
    (by simp) (by simp)

/-- The length of a `flatMap` whose pieces all have the same length. -/
theorem length_flatMap_const {α β : Type _} (l : List α) (f : α → List β) (c : ℕ)
    (h : ∀ a ∈ l, (f a).length = c) : (l.flatMap f).length = l.length * c := by
  induction l with
  | nil => simp
  | cons a l ih =>
    simp only [List.flatMap_cons, List.length_append, List.length_cons]
    rw [h a (List.mem_cons_self a l), ih (fun x hx => h x (List.mem_cons_of_mem a hx))]
    ring

/-- The chunk grid has exactly `countX × countZ × countY` cells. -/
theorem mkChunks_length (b : Building) (rand : ℕ → ℚ) (matId : ℕ) :
    (mkChunks b rand matId).length = countX b * countZ b * countY b := by
  rw [mkChunks]
  rw [length_flatMap_const _ _ (countZ b * countY b) ?inner]
  · rw [List.length_range]
    ring
  case inner =>
    intro ix _
    rw [length_flatMap_const _ _ (countY b) ?innermost]
    · rw [List.length_range]
    case innermost =>
      intro iz _
      rw [List.length_map, List.length_range]

/-- C2: destroying a (fresh, present) building creates exactly
`countX × countZ × countY` chunks, with
`countX = max(2, round(width/3))`, `countZ = max(2, round(depth/3))`,
`countY = max(2, round(height/4))`. -/
theorem chunk_count (rand : ℕ → ℚ) (bIndex : ℕ) (kx kz : ℚ) (s : BComp) (b : Building)
    (hset : bIndex ∉ s.destroyedSet) (hb : s.store.buildings[bIndex]? = some b) :
    (destroyBuildingComp rand bIndex kx kz s).chunks.length
      = s.chunks.length + countX b * countZ b * countY b := by
  rw [destroyBuildingComp_chunks rand bIndex kx kz s b hset hb]
  rw [List.length_append, mkChunks_length]

/-- Witness for C2: a building with a 9×9 footprint bounding box and height
8 produces 3 × 3 × 2 = 18 chunks. -/
theorem chunk_count_witness :
    (destroyBuildingComp (fun _ => 0) 0 0 0
        ⟨[], [], [], [], (fun _ => ⟨1, false⟩), 0, ⟨[⟨"", false, 0, 0, 5, 8, ⟨0, 0, 9, 9⟩⟩], 0, 0, 0, "", 0⟩⟩
      ).chunks.length = 18 := by
  rw [chunk_count (fun _ => 0) 0 0 0
    ⟨[], [], [], [], (fun _ => ⟨1, false⟩), 0, ⟨[⟨"", false, 0, 0, 5, 8, ⟨0, 0, 9, 9⟩⟩], 0, 0, 0, "", 0⟩⟩
    ⟨"", false, 0, 0, 5, 8, ⟨0, 0, 9, 9⟩⟩ (by simp) rfl]
  norm_num [countX, countZ, countY, jsRound]
  rfl

/-- C4: an effective melee strike destroys a non-destroyed building at true
horizontal centroid distance `d` with bounding radius `r ≠ 0` if and only if
`d < r + 12` and (the character-to-centroid vector has positive dot product
with the forward direction, or `d < 8`); in particular a building with
`d ≥ r + 12` is never destroyed by the strike, regardless of facing. -/
theorem melee_reach (rand : ℕ → ℕ → ℚ) (dist : ℕ → ℚ) (px pz dirX dirZ d : ℚ)
    (w : KaijuWorld) (i : ℕ) (b : Building)
    (hcd : ¬ w.cooldown > 0)
    (hb : w.comp.store.buildings[i]? = some b)
    (hnd : b.destroyed = false) (hset : i ∉ w.comp.destroyedSet)
    (hr : b.radius ≠ 0)
    (hd : dist i = d) (hd0 : 0 ≤ d)
    (hdist : d * d = (b.centroidX - px) * (b.centroidX - px) +
                     (b.centroidZ - pz) * (b.centroidZ - pz)) :
    (∃ b', (performSmash rand dist px pz dirX dirZ w).comp.store.buildings[i]? = some b'
        ∧ b'.destroyed = true)
      ↔ (d < b.radius + 12 ∧
         (0 < (b.centroidX - px) * dirX + (b.centroidZ - pz) * dirZ ∨ d < 8)) := by
  have hmain : (performSmash rand dist px pz dirX dirZ w).comp.store.buildings[i]? =
      (if smashEligible b px pz dirX dirZ (dist i) then
        some { b with destroyed := true } else some b) := by
    simp only [performSmash, if_neg hcd, addShakeStore]
    exact destroyScan_get rand px pz _ w.comp i b hb hnd hset
  rw [hmain, hd]
  by_cases he : smashEligible b px pz dirX dirZ d = true
  · rw [if_pos he]
    constructor
    · intro _
      exact (smashEligible_iff b px pz dirX dirZ d hnd hr).mp he
    · intro _
      exact ⟨_, rfl, rfl⟩
  · rw [if_neg he]
    constructor
    · rintro ⟨b', hb', hd'⟩
      obtain rfl : b = b' := Option.some_inj.mp hb'
      exact absurd hd' (by simp [hnd])
    · intro hcond
      exact absurd ((smashEligible_iff b px pz dirX dirZ d hnd hr).mpr hcond) he

/-- Witness for C4: an eligible building (distance 5, radius 5, facing dot
3 > 0) is destroyed by the strike. -/
theorem melee_reach_witness :
    ∃ b', (performSmash (fun _ _ => 0) (fun _ => 5) 0 0 1 0
        ⟨0, ⟨[], [], [], [], (fun _ => ⟨1, false⟩), 0, ⟨[⟨"", false, 3, 4, 5, 8, ⟨0, 0, 9, 9⟩⟩], 0, 0, 0, "", 0⟩⟩⟩
      ).comp.store.buildings[0]? = some b' ∧ b'.destroyed = true :=
  (melee_reach (fun _ _ => 0) (fun _ => 5) 0 0 1 0 5
    ⟨0, ⟨[], [], [], [], (fun _ => ⟨1, false⟩), 0, ⟨[⟨"", false, 3, 4, 5, 8, ⟨0, 0, 9, 9⟩⟩], 0, 0, 0, "", 0⟩⟩⟩ 0
    ⟨"", false, 3, 4, 5, 8, ⟨0, 0, 9, 9⟩⟩
    (by norm_num) rfl rfl (by simp) (by norm_num) rfl (by norm_num)
    (by norm_num)).mpr (by norm_num)

/-- C5: a stomp destroys a non-destroyed building exactly when its centroid
lies at true distance `d < 25` from the character; buildings farther out are
never destroyed by the stomp, regardless of facing. -/
theorem stomp_radius (rand : ℕ → ℕ → ℚ) (px pz d : ℚ) (c : BComp) (i : ℕ) (b : Building)
    (hb : c.store.buildings[i]? = some b) (hnd : b.destroyed = false)
    (hset : i ∉ c.destroyedSet) (hd0 : 0 ≤ d)
    (hdist : d * d = (b.centroidX - px) * (b.centroidX - px) +
                     (b.centroidZ - pz) * (b.centroidZ - pz)) :
    (∃ b', (performStomp rand px pz c).store.buildings[i]? = some b'
        ∧ b'.destroyed = true) ↔ d < 25 := by
  have hmain : (performStomp rand px pz c).store.buildings[i]? =
      (if stompEligible b px pz then some { b with destroyed := true } else some b) := by
    rw [performStomp]
    exact destroyScan_get rand px pz _ { c with store := addShakeStore c.store 2 } i b
      hb hnd hset
  rw [hmain]
  by_cases he : stompEligible b px pz = true
  · rw [if_pos he]
    constructor
    · intro _
      exact (stompEligible_iff b px pz d hnd hd0 hdist).mp he
    · intro _
      exact ⟨_, rfl, rfl⟩
  · rw [if_neg he]
    constructor
    · rintro ⟨b', hb', hd'⟩
      obtain rfl : b = b' := Option.some_inj.mp hb'
      exact absurd hd' (by simp [hnd])
    · intro hlt
      exact absurd ((stompEligible_iff b px pz d hnd hd0 hdist).mpr hlt) he

/-- Witness for C5: a building at distance 5 < 25 is destroyed by the stomp. -/
theorem stomp_radius_witness :
    ∃ b', (performStomp (fun _ _ => 0) 0 0
        ⟨[], [], [], [], (fun _ => ⟨1, false⟩), 0, ⟨[⟨"", false, 3, 4, 5, 8, ⟨0, 0, 9, 9⟩⟩], 0, 0, 0, "", 0⟩⟩
      ).store.buildings[0]? = some b' ∧ b'.destroyed = true :=
  (stomp_radius (fun _ _ => 0) 0 0 5
    ⟨[], [], [], [], (fun _ => ⟨1, false⟩), 0, ⟨[⟨"", false, 3, 4, 5, 8, ⟨0, 0, 9, 9⟩⟩], 0, 0, 0, "", 0⟩⟩ 0
    ⟨"", false, 3, 4, 5, 8, ⟨0, 0, 9, 9⟩⟩
    rfl rfl (by simp) (by norm_num) (by norm_num)).mpr (by norm_num)

/-- C7: a melee strike taken while the cooldown is not positive sets the
cooldown to 0.3; after any frame sequence whose raw time steps are
nonnegative and sum to less than 0.3 seconds, a second strike attempt finds
the cooldown still positive and is a complete no-op (no destruction, no
shake, no flash — the state is unchanged). -/
theorem melee_cooldown_noop (rand rand2 : ℕ → ℕ → ℚ) (dist dist2 : ℕ → ℚ)
    (px pz dirX dirZ px2 pz2 dirX2 dirZ2 : ℚ) (w : KaijuWorld)
    (hcd : ¬ w.cooldown > 0) (dts : List ℚ)
    (hdts : ∀ dt ∈ dts, 0 ≤ dt) (hsum : dts.sum < 3/10) :
    performSmash rand2 dist2 px2 pz2 dirX2 dirZ2
        (dts.foldl (fun w dt => tickCooldown dt w)
          (performSmash rand dist px pz dirX dirZ w))
      = dts.foldl (fun w dt => tickCooldown dt w)
          (performSmash rand dist px pz dirX dirZ w) := by
  apply performSmash_of_cooldown_pos
  apply foldl_tickCooldown_pos dts _ hdts
  have h1 : (performSmash rand dist px pz dirX dirZ w).cooldown = 3/10 := by
    rw [performSmash, if_neg hcd]
  rw [h1]
  exact hsum

/-- Witness for C7 at a concrete world and frame sequence. -/
theorem melee_cooldown_noop_witness :
    performSmash (fun _ _ => 1/2) (fun _ => 1) 1 1 0 1
        ([1/10, 1/10].foldl (fun w dt => tickCooldown dt w)
          (performSmash (fun _ _ => 0) (fun _ => 1) 0 0 1 0
            ⟨0, ⟨[], [], [], [], (fun _ => ⟨1, false⟩), 0, ⟨[], 0, 0, 0, "", 0⟩⟩⟩))
      = [1/10, 1/10].foldl (fun w dt => tickCooldown dt w)
          (performSmash (fun _ _ => 0) (fun _ => 1) 0 0 1 0
            ⟨0, ⟨[], [], [], [], (fun _ => ⟨1, false⟩), 0, ⟨[], 0, 0, 0, "", 0⟩⟩⟩) :=
  melee_cooldown_noop (fun _ _ => 0) (fun _ _ => 1/2) (fun _ => 1) (fun _ => 1)
    0 0 1 0 1 1 0 1 ⟨0, ⟨[], [], [], [], (fun _ => ⟨1, false⟩), 0, ⟨[], 0, 0, 0, "", 0⟩⟩⟩
    (by norm_num) [1/10, 1/10]
    (by norm_num [List.forall_mem_cons]) (by norm_num)

/-- Witness for C8's amended theorem at a concrete particle. -/
theorem dust_opacity_formula_witness :
    ∃ p', dustStep (1/20) ⟨0, 0, 0, 0, 0, 0, 1, 2, 1, 1/2⟩ = some p'
      ∧ p'.opacity ≤ 2/5 := by
  have heq : dustStep (1/20) ⟨0, 0, 0, 0, 0, 0, 1, 2, 1, 1/2⟩ =
      some ⟨0, 0, 0, 0, -3/40, 0, 19/20, 2, 31/10, 19/100⟩ := by
    norm_num [dustStep]
  have h := dust_opacity_formula (1/20) ⟨0, 0, 0, 0, 0, 0, 1, 2, 1, 1/2⟩ (by norm_num)
  exact ⟨_, heq, (h _ heq).2 (by norm_num)⟩

end Kaiju
